import Mathlib

/-!
Shallow embedding of the incremental-loading and clustering map pipeline:
the client component src/components/MapView.tsx (geometry indexing,
cluster-index rebuilds, the paginated load loop, the one-time auto-fit and
the cluster click handler) and the paginated endpoint
src/app/api/geojson/route.ts (keyset pagination with base64url cursors).
Coordinates are modelled as rationals.
-/

namespace MapPipeline

/-- A latitude/longitude pair (leaflet L.LatLng). -/
structure LatLng where
  lat : ℚ
  lng : ℚ
  deriving DecidableEq, Repr

/-- A valid leaflet LatLngBounds: corners of a bounding rectangle. An invalid
(empty) bounds is modelled as Option.none at the use sites, since leaflet
bounds start invalid and become valid on the first extend. -/
structure LBounds where
  south : ℚ
  west : ℚ
  north : ℚ
  east : ℚ
  deriving DecidableEq, Repr

def LBounds.ofPoint (p : LatLng) : LBounds :=
  ⟨p.lat, p.lng, p.lat, p.lng⟩

def LBounds.extendPoint (b : LBounds) (p : LatLng) : LBounds :=
  ⟨min b.south p.lat, min b.west p.lng, max b.north p.lat, max b.east p.lng⟩

/-- Center of a bounds rectangle (leaflet getBounds().getCenter()). -/
def LBounds.center (b : LBounds) : LatLng :=
  ⟨(b.south + b.north) / 2, (b.west + b.east) / 2⟩

/-- Extending a possibly-invalid bounds by a point always yields a valid bounds. -/
def extendOpt (b : Option LBounds) (p : LatLng) : LBounds :=
  match b with
  | none => LBounds.ofPoint p
  | some b => b.extendPoint p

/-- A GeoJSON geometry, modelled by the list of coordinate positions it contains
(all that leaflet getBounds inspects). An empty list models a degenerate or
empty geometry, whose bounds are invalid. -/
structure Geometry where
  coords : List LatLng
  deriving DecidableEq, Repr

/-- A GeoJSON Feature as consumed by MapView: only the geometry is inspected by
the indexing pipeline (the property bag and upstream id are carried opaquely
and omitted here). The geometry member may be absent. -/
structure Feature where
  geometry : Option Geometry
  deriving DecidableEq, Repr

/-- Bounds of the coordinate positions of a geometry, as computed by
L.geoJSON(geometry).getBounds(): none (invalid) when there are no positions. -/
def geomBounds (g : Geometry) : Option LBounds :=
  match g.coords with
  | [] => none
  | c :: cs => some (cs.foldl LBounds.extendPoint (LBounds.ofPoint c))

/-- Model of geometryToLatLng (src/components/MapView.tsx lines 42-57): the
center of the geometry's bounds; null for a missing geometry, for invalid
bounds, and on the catch branch (a geometry leaflet cannot interpret — our
geometries are coordinate lists, so that branch coincides with the others). -/
def geometryToLatLng (geometry : Option Geometry) : Option LatLng :=
  match geometry with
  | none => none
  | some g =>
    match geomBounds g with
    | none => none
    | some b => some b.center

/-- A representative point fed to the cluster index: the Point feature pushed to
newPoints in addCollection, whose properties carry the locally assigned id. -/
structure ClusterPoint where
  lng : ℚ
  lat : ℚ
  pid : Nat
  deriving DecidableEq, Repr

def CLUSTER_MAX_ZOOM : Nat := 18

def CLUSTER_RADIUS : Nat := 60

/-- The client session state held in MapView's refs and React state, as far as
the indexing and rendering pipeline reads or writes it: featureMap is the
FeatureTable (insertion-ordered association list, modelling the Map object),
points the representative-point buffer, generation counts cluster-index
rebuilds (Supercluster load calls), fitCount counts fitBounds applications,
and viewCenter/viewZoom are the viewport. -/
structure MapState where
  featureMap : List (Nat × Feature)
  points : List ClusterPoint
  nextFeatureId : Nat
  bounds : Option LBounds
  shouldFitBounds : Bool
  fitCount : Nat
  mapReady : Bool
  viewCenter : LatLng
  viewZoom : Nat
  generation : Nat
  deriving DecidableEq, Repr

/-- Model of renderClusters (MapView.tsx lines 112-178) restricted to its effect
on session state: drawing markers into the layer group is external UI; what
remains is the guard structure (no map, empty point buffer) and the one-time
fitBounds of lines 174-177, which moves the viewport to the accumulated
bounds (zoom recomputation by leaflet is not tracked) and clears the
fit-once flag. -/
def renderClusters (s : MapState) : MapState :=
  if s.mapReady = false then s
  else if s.points.length = 0 then s
  else if s.shouldFitBounds then
    match s.bounds with
    | some b =>
      { s with viewCenter := b.center, shouldFitBounds := false,
               fitCount := s.fitCount + 1 }
    | none => s
  else s

/-- Accumulator of the forEach over collection.features in addCollection:
the featureMap insertions, the newPoints array, the next fresh id and the
running nextBounds (initialized from the previous valid bounds, since
extending an empty leaflet bounds with the old corners reproduces it). -/
structure BatchAcc where
  entries : List (Nat × Feature)
  newPoints : List ClusterPoint
  nextId : Nat
  bnds : Option LBounds
  deriving Repr

/-- One iteration of the forEach in addCollection (MapView.tsx lines 199-217):
a feature whose center cannot be computed is skipped entirely; otherwise it
receives the next sequential id, is stored in the feature table, a Point
feature carrying that id is pushed, and the running bounds are extended. -/
def stepFeature (acc : BatchAcc) (f : Feature) : BatchAcc :=
  match geometryToLatLng f.geometry with
  | none => acc
  | some c =>
    { entries := acc.entries ++ [(acc.nextId, f)],
      newPoints := acc.newPoints ++ [⟨c.lng, c.lat, acc.nextId⟩],
      nextId := acc.nextId + 1,
      bnds := some (extendOpt acc.bnds c) }

/-- Model of addCollection (MapView.tsx lines 181-232): an empty collection or a
batch yielding no points leaves the state unchanged; otherwise the new
entries and points are appended, the bounds replaced when the extended bounds
are valid, the cluster index reloaded from the full point buffer (generation
+ 1), and the clusters re-rendered when the map is ready. -/
def addCollection (collection : List Feature) (s : MapState) : MapState :=
  if collection.isEmpty then s
  else
    let acc := collection.foldl stepFeature ⟨[], [], s.nextFeatureId, s.bounds⟩
    if acc.newPoints.isEmpty then s
    else
      let s1 : MapState :=
        { s with
          featureMap := s.featureMap ++ acc.entries,
          points := s.points ++ acc.newPoints,
          nextFeatureId := acc.nextId,
          bounds := match acc.bnds with | some b => some b | none => s.bounds,
          generation := s.generation + 1 }
      if s1.mapReady then renderClusters s1 else s1

/-- A scripted result for one fetch of /api/geojson as the load loop sees it:
either a parsed payload (feature list plus optional nextCursor) or a
non-success HTTP response (response.ok false, which load turns into a throw). -/
inductive PageResult where
  | ok (features : List Feature) (nextCursor : Option String)
  | httpError (status : Nat)
  deriving Repr

/-- The full state of one load session (MapView.tsx lines 234-297): the map
session state plus the React progress state, the cancellation flag, and
instrumentation counters — fetchCount counts fetches issued, toastCount
user-visible error notifications, suspIdx the asynchronous suspension points
passed so far, staleWrites the batch applications performed while the
cancellation flag was already set, and fetchesWhileCancelled the fetches
issued while the flag was set. -/
structure LoadState where
  ms : MapState
  totalFetched : Nat
  hasMore : Bool
  isLoading : Bool
  cancelled : Bool
  fetchCount : Nat
  toastCount : Nat
  suspIdx : Nat
  staleWrites : Nat
  fetchesWhileCancelled : Nat
  deriving DecidableEq, Repr

/-- Passing an asynchronous suspension point: while the coroutine is suspended,
view teardown may run and set the cancellation flag; the schedule says, per
global suspension index, whether it does. Once set, the flag stays set. -/
def susp (sched : Nat → Bool) (s : LoadState) : LoadState :=
  { s with cancelled := s.cancelled || sched s.suspIdx, suspIdx := s.suspIdx + 1 }

/-- Starting one fetch (MapView.tsx line 258). -/
def startFetch (s : LoadState) : LoadState :=
  { s with fetchCount := s.fetchCount + 1,
           fetchesWhileCancelled :=
             s.fetchesWhileCancelled + (if s.cancelled then 1 else 0) }

/-- Applying one successfully parsed page (MapView.tsx lines 266-268):
addCollection on the payload followed by the totalFetched update. -/
def applyPage (feats : List Feature) (s : LoadState) : LoadState :=
  { s with ms := addCollection feats s.ms,
           totalFetched := s.totalFetched + feats.length,
           staleWrites := s.staleWrites + (if s.cancelled then 1 else 0) }

/-- The finally block of load (MapView.tsx lines 285-289). -/
def finalizeLoad (s : LoadState) : LoadState :=
  if s.cancelled then s else { s with isLoading := false }

/-- The while loop of load (MapView.tsx lines 249-292), driven by a script of
fetch results (the k-th fetch returns the k-th script entry) and a cancel
schedule. The cancellation flag is read at the loop head only; one suspension
point is passed per fetch (the fetch await and the response.json await are
collapsed into one, since no state is touched between them) and one per
inter-page delay. A non-ok response throws: the catch shows the toast once
and the finally block runs. An exhausted script leaves the state as is (the
scripts quantified over below are always long enough). -/
def runLoad (script : List PageResult) (sched : Nat → Bool) (s : LoadState) :
    LoadState :=
  if s.cancelled then finalizeLoad s
  else
    match script with
    | [] => s
    | p :: rest =>
      let s1 := susp sched (startFetch s)
      match p with
      | .httpError _ => finalizeLoad { s1 with toastCount := s1.toastCount + 1 }
      | .ok feats next =>
        let s2 := applyPage feats s1
        match next with
        | none => finalizeLoad { s2 with hasMore := false }
        | some _ => runLoad rest sched (susp sched s2)

/-- The reset performed when the load effect runs (MapView.tsx lines 234-246)
followed by entering load (setIsLoading true): a fresh session. Whether the
map widget has already mounted is a parameter. -/
def freshSession (mapReady : Bool) : LoadState :=
  { ms := { featureMap := [], points := [], nextFeatureId := 1, bounds := none,
            shouldFitBounds := true, fitCount := 0, mapReady := mapReady,
            viewCenter := ⟨-14235 / 1000, -519253 / 10000⟩, viewZoom := 5,
            generation := 0 },
    totalFetched := 0, hasMore := true, isLoading := true, cancelled := false,
    fetchCount := 0, toastCount := 0, suspIdx := 0, staleWrites := 0,
    fetchesWhileCancelled := 0 }

/-- Modelled from the spec: the Spatial Cluster Index of section 4.4 is realised
by the Supercluster npm library, whose code is not part of this repository.
A build of the index records the point set it was built from and a generation
number identifying that build; cluster ids are valid only for the build that
issued them (rebuilding makes previously issued ids stale). -/
structure ClusterIndex where
  pts : List ClusterPoint
  generation : Nat
  deriving Repr

/-- Modelled from the spec: rebuild replaces the index wholesale with a fresh
structure over the full accumulated point set. -/
def rebuild (pts : List ClusterPoint) (generation : Nat) : ClusterIndex :=
  ⟨pts, generation⟩

/-- Modelled from the spec: the grid cell a point falls into at a zoom level —
points sharing a cell are within one cluster radius of each other at that
zoom and are merged. -/
def cellKey (zoom : Nat) (p : ClusterPoint) : Int × Int :=
  (Rat.floor (p.lng * (2 ^ zoom) / (CLUSTER_RADIUS : ℚ)),
   Rat.floor (p.lat * (2 ^ zoom) / (CLUSTER_RADIUS : ℚ)))

/-- Groups a list by a key function: one group per distinct key in
first-occurrence order, each group keeping list order. -/
def groupByKey (key : ClusterPoint → Int × Int) : List ClusterPoint → List (List ClusterPoint)
  | [] => []
  | p :: rest =>
    (p :: rest.filter (fun q => key q == key p)) ::
      groupByKey key (rest.filter (fun q => !(key q == key p)))
termination_by l => l.length
decreasing_by
  simp only [List.length_cons]
  exact Nat.lt_succ_of_le (List.length_filter_le _ _)

/-- A cluster-index query result: an aggregate Cluster (synthetic id, member
count, centroid) or a Leaf passing a single representative point through. -/
inductive ClusterOrPoint where
  | cluster (cid : Nat) (count : Nat) (center : LatLng)
  | leaf (p : ClusterPoint)
  deriving DecidableEq, Repr

/-- Centroid of a group of points. -/
def centroidOf (g : List ClusterPoint) : LatLng :=
  ⟨(g.map (·.lat)).sum / (g.length : ℚ), (g.map (·.lng)).sum / (g.length : ℚ)⟩

/-- Modelled from the spec: a group of two or more points becomes a Cluster
(its synthetic id derived from the first member), a singleton passes through
as a Leaf. -/
def groupResult (g : List ClusterPoint) : ClusterOrPoint :=
  match g with
  | [p] => .leaf p
  | g => .cluster (match g.head? with | some p => p.pid | none => 0)
      g.length (centroidOf g)

/-- Modelled from the spec: a viewport for a cluster query; world is the
full-world bounds used by the zoom-0 conservation property. -/
inductive QueryBounds where
  | world
  | box (b : LBounds)

/-- Membership of a point in a query viewport. -/
def inBounds (qb : QueryBounds) (p : ClusterPoint) : Bool :=
  match qb with
  | .world => true
  | .box b =>
    decide (b.west ≤ p.lng) && decide (p.lng ≤ b.east) &&
      decide (b.south ≤ p.lat) && decide (p.lat ≤ b.north)

/-- Modelled from the spec: query (Supercluster getClusters) — group the points
inside the viewport by grid cell at the given zoom; each group yields one
Cluster or Leaf. -/
def clusterQuery (idx : ClusterIndex) (qb : QueryBounds) (zoom : Nat) :
    List ClusterOrPoint :=
  (groupByKey (cellKey zoom) (idx.pts.filter (inBounds qb))).map groupResult

/-- Number of representative points a query result stands for. -/
def representedCount : ClusterOrPoint → Nat
  | .cluster _ n _ => n
  | .leaf _ => 1

def totalRepresented (rs : List ClusterOrPoint) : Nat :=
  (rs.map representedCount).sum

/-- The error thrown by Supercluster getClusterExpansionZoom for an id the
current index build does not know (the spec's ClusterNotFoundError). -/
inductive ClusterNotFoundError where
  | clusterNotFound (raw : Nat)
  deriving DecidableEq, Repr

/-- Modelled from the spec: a cluster id as issued by a query against one build
of the index — the raw numeric id, the generation of the build that issued
it, and the zoom of the query that produced the cluster. The id is stale
exactly when the index has been rebuilt since (generation mismatch). -/
structure ClusterId where
  raw : Nat
  generation : Nat
  zoom : Nat
  deriving DecidableEq, Repr

/-- The members of the cluster a point id belongs to at the issuing zoom. -/
def memberGroup (idx : ClusterIndex) (cid : ClusterId) : List ClusterPoint :=
  match (groupByKey (cellKey cid.zoom) idx.pts).find?
      (fun g => g.any (fun p => p.pid == cid.raw)) with
  | some g => g
  | none => []

/-- Whether a group of points occupies more than one cell at a zoom level. -/
def splitsAt (members : List ClusterPoint) (z : Nat) : Bool :=
  match members with
  | [] => true
  | p :: rest => rest.any (fun q => !(cellKey z q == cellKey z p))

/-- Modelled from the spec: the minimum zoom at which the cluster's members
first separate into distinct cells (CLUSTER_MAX_ZOOM + 1 when they never
separate within the zoom range). -/
def expansionZoomOf (idx : ClusterIndex) (cid : ClusterId) : Nat :=
  match (List.range (CLUSTER_MAX_ZOOM + 2)).find?
      (fun z => splitsAt (memberGroup idx cid) z) with
  | some z => z
  | none => CLUSTER_MAX_ZOOM + 1

/-- Modelled from the spec: expansionZoom fails with a ClusterNotFoundError
when the id was issued by an earlier build of the index (stale after a
rebuild) or denotes no cluster of the current build. -/
def getClusterExpansionZoom (idx : ClusterIndex) (cid : ClusterId) :
    Except ClusterNotFoundError Nat :=
  if cid.generation == idx.generation && !(memberGroup idx cid).isEmpty then
    .ok (expansionZoomOf idx cid)
  else
    .error (.clusterNotFound cid.raw)

/-- Model of the cluster marker click handler (MapView.tsx lines 140-157):
no-op when the point buffer is empty; otherwise look up the expansion zoom —
the catch branch (stale id) warns and returns, leaving the viewport
untouched; on success the map flies to the cluster position at
min(expansion zoom, CLUSTER_MAX_ZOOM). -/
def onClusterClick (s : MapState) (idx : ClusterIndex) (cid : ClusterId)
    (markerLat markerLng : ℚ) : MapState :=
  if s.points.length = 0 then s
  else
    match getClusterExpansionZoom idx cid with
    | .error _ => s
    | .ok z =>
      { s with viewCenter := ⟨markerLat, markerLng⟩,
               viewZoom := min z CLUSTER_MAX_ZOOM }

end MapPipeline

namespace GeojsonRoute

open MapPipeline

/-!
Model of src/app/api/geojson/route.ts: base64url cursor codecs and the GET
handler performing keyset pagination over an id-ordered table.
-/

/-- The base64url alphabet as a map from sextet value to character code
(A-Z, a-z, 0-9, minus, underscore). -/
def b64Char (s : Nat) : Nat :=
  if s < 26 then 65 + s
  else if s < 52 then 97 + (s - 26)
  else if s < 62 then 48 + (s - 52)
  else if s = 62 then 45
  else 95

/-- Inverse of the base64url alphabet: character code back to sextet value. -/
def b64Index (c : Nat) : Nat :=
  if 65 ≤ c ∧ c ≤ 90 then c - 65
  else if 97 ≤ c ∧ c ≤ 122 then 26 + (c - 97)
  else if 48 ≤ c ∧ c ≤ 57 then 52 + (c - 48)
  else if c = 45 then 62
  else 63

/-- Splits a byte list into base64 sextets (big-endian within each 3-byte
group; trailing groups of 1 or 2 bytes yield 2 or 3 sextets, unpadded, as
Node's base64url encoding does). -/
def toSextets : List Nat → List Nat
  | [] => []
  | [a] => [a / 4, a % 4 * 16]
  | [a, b] => [a / 4, a % 4 * 16 + b / 16, b % 16 * 4]
  | a :: b :: c :: rest =>
    a / 4 :: (a % 4 * 16 + b / 16) :: (b % 16 * 4 + c / 64) :: c % 64 ::
      toSextets rest

/-- Reassembles bytes from base64 sextets (inverse of toSextets on well-formed
input). -/
def fromSextets : List Nat → List Nat
  | [s1, s2] => [s1 * 4 + s2 / 16]
  | [s1, s2, s3] => [s1 * 4 + s2 / 16, s2 % 16 * 16 + s3 / 4]
  | s1 :: s2 :: s3 :: s4 :: rest =>
    (s1 * 4 + s2 / 16) :: (s2 % 16 * 16 + s3 / 4) :: (s3 % 4 * 64 + s4) ::
      fromSextets rest
  | _ => []

/-- The UTF-8 bytes of the decimal representation of a natural number
(what Buffer.from(String(value), "utf-8") holds). -/
def decimalBytes (n : Nat) : List Nat :=
  if n = 0 then [48] else ((Nat.digits 10 n).reverse).map (· + 48)

/-- Number(s) applied to a decimal digit string, as a fold over its bytes. -/
def parseDecimal (bytes : List Nat) : Nat :=
  Nat.ofDigits 10 ((bytes.map (· - 48)).reverse)

/-- Model of encodeCursor (route.ts lines 26-28): the base64url character codes
of the decimal string of the id. -/
def encodeCursor (value : Nat) : List Nat :=
  (toSextets (decimalBytes value)).map b64Char

/-- Model of decodeCursor (route.ts lines 30-32): decode base64url back to the
decimal string and parse it as a number. -/
def decodeCursor (value : List Nat) : Nat :=
  parseDecimal (fromSextets (value.map b64Index))

def DEFAULT_LIMIT : Nat := 5000

def MAX_LIMIT : Nat := 20000

/-- A row of dw.dm_sicar as selected by the route (id, cod_imovel, geojson);
cod_imovel is carried opaquely into the property bag and omitted here. -/
structure SicarRow where
  id : Nat
  geojson : Geometry
  deriving DecidableEq, Repr

/-- Model of buildFeature (route.ts lines 34-44). -/
def buildFeature (row : SicarRow) : Feature :=
  ⟨some row.geojson⟩

/-- Model of runQuery (route.ts lines 46-81): db stands for the table ordered by
ascending id (the ORDER BY of both SQL variants; theorems that need the
ordering assume it); with a cursor only rows with strictly greater id
qualify, and at most limit rows are read. -/
def runQuery (db : List SicarRow) (limit : Nat) (cursorValue : Option Nat) :
    List SicarRow :=
  match cursorValue with
  | some c => (db.filter (fun r => decide (c < r.id))).take limit
  | none => db.take limit

/-- Limit clamping of GET (route.ts line 88): Number(limitParam) with NaN or 0
falling back to the default (the JS or-chain), then clamped into
[1, MAX_LIMIT]. An absent or unparsable limit parameter is modelled as none. -/
def clampLimit (limitParam : Option Nat) : Nat :=
  let n := match limitParam with
    | none => DEFAULT_LIMIT
    | some 0 => DEFAULT_LIMIT
    | some k => k
  min (max n 1) MAX_LIMIT

/-- The happy-path response body of GET (route.ts lines 101-110). -/
structure GeoJsonResponse where
  features : List Feature
  nextCursor : Option (List Nat)
  deriving DecidableEq, Repr

/-- Model of GET (route.ts lines 83-127) on the happy path (the database query
succeeds): decode the cursor when present, run the page query, build the
features, and attach a nextCursor encoding the last row's id whenever the
page is nonempty (the lastRow truthiness check). -/
def GET (db : List SicarRow) (limitParam : Option Nat)
    (cursorParam : Option (List Nat)) : GeoJsonResponse :=
  let limit := clampLimit limitParam
  let cursorValue := cursorParam.map decodeCursor
  let rows := runQuery db limit cursorValue
  { features := rows.map buildFeature,
    nextCursor := rows.getLast?.map (fun r => encodeCursor r.id) }

/-- A client loading the endpoint to exhaustion: issue one fetch with the
current cursor and follow nextCursor while present. Returns (number of
fetches, number of nonempty pages among them), or none when fuel runs out. -/
def fullLoad (db : List SicarRow) (limitParam : Option Nat)
    (cursorParam : Option (List Nat)) (fuel : Nat) : Option (Nat × Nat) :=
  match fuel with
  | 0 => none
  | fuel + 1 =>
    let resp := GET db limitParam cursorParam
    let ne := if resp.features.isEmpty then 0 else 1
    match resp.nextCursor with
    | none => some (1, ne)
    | some c =>
      match fullLoad db limitParam (some c) fuel with
      | none => none
      | some pr => some (pr.1 + 1, pr.2 + ne)

end GeojsonRoute

namespace MapPipeline

/-! Characterization of the batch fold of addCollection. -/

/-- Whether a feature has a geometry with at least one coordinate position. -/
def nonEmptyGeometry (f : Feature) : Bool :=
  match f.geometry with
  | none => false
  | some g => !g.coords.isEmpty

/-- The featureMap insertions a batch performs when the next fresh id is n. -/
def batchEntries (n : Nat) : List Feature → List (Nat × Feature)
  | [] => []
  | f :: fs =>
    match geometryToLatLng f.geometry with
    | none => batchEntries n fs
    | some _ => (n, f) :: batchEntries (n + 1) fs

/-- The representative points a batch pushes when the next fresh id is n. -/
def batchPoints (n : Nat) : List Feature → List ClusterPoint
  | [] => []
  | f :: fs =>
    match geometryToLatLng f.geometry with
    | none => batchPoints n fs
    | some c => ⟨c.lng, c.lat, n⟩ :: batchPoints (n + 1) fs

/-- Number of features of a batch whose representative point is computable. -/
def batchCount (c : List Feature) : Nat :=
  (c.filter (fun f => (geometryToLatLng f.geometry).isSome)).length

/-- The bounds accumulator value after folding a batch. -/
def boundsAfter (b : Option LBounds) : List Feature → Option LBounds
  | [] => b
  | f :: fs =>
    match geometryToLatLng f.geometry with
    | none => boundsAfter b fs
    | some c => boundsAfter (some (extendOpt b c)) fs

lemma foldl_stepFeature_eq (c : List Feature) (acc : BatchAcc) :
    c.foldl stepFeature acc =
      ⟨acc.entries ++ batchEntries acc.nextId c,
       acc.newPoints ++ batchPoints acc.nextId c,
       acc.nextId + batchCount c,
       boundsAfter acc.bnds c⟩ := by
  induction c generalizing acc with
  | nil => simp [batchEntries, batchPoints, batchCount, boundsAfter]
  | cons f fs ih =>
    cases hc : geometryToLatLng f.geometry with
    | none =>
      simp only [List.foldl_cons, stepFeature, hc, ih, batchEntries, batchPoints,
        batchCount, boundsAfter, List.filter_cons, Option.isSome_none,
        Bool.false_eq_true, if_false]
    | some ctr =>
      rw [List.foldl_cons]
      simp only [stepFeature, hc]
      rw [ih]
      simp only [batchEntries, batchPoints, batchCount, boundsAfter, hc,
        List.filter_cons, Option.isSome_some, if_true, List.length_cons]
      congr 1
      · simp [List.append_assoc]
      · simp [List.append_assoc]
      · omega

lemma batchEntries_map_fst (c : List Feature) (n : Nat) :
    (batchEntries n c).map Prod.fst = List.range' n (batchCount c) := by
  induction c generalizing n with
  | nil => simp [batchEntries, batchCount]
  | cons f fs ih =>
    cases hc : geometryToLatLng f.geometry with
    | none =>
      simp [batchEntries, batchCount, hc, List.filter_cons] at ih ⊢
      exact ih n
    | some ctr =>
      simp [batchEntries, batchCount, hc, List.filter_cons, List.range'_succ] at ih ⊢
      exact ih (n + 1)

lemma batchPoints_map_pid (c : List Feature) (n : Nat) :
    (batchPoints n c).map ClusterPoint.pid = List.range' n (batchCount c) := by
  induction c generalizing n with
  | nil => simp [batchPoints, batchCount]
  | cons f fs ih =>
    cases hc : geometryToLatLng f.geometry with
    | none =>
      simp [batchPoints, batchCount, hc, List.filter_cons] at ih ⊢
      exact ih n
    | some ctr =>
      simp [batchPoints, batchCount, hc, List.filter_cons, List.range'_succ] at ih ⊢
      exact ih (n + 1)

lemma batchEntries_length (c : List Feature) (n : Nat) :
    (batchEntries n c).length = batchCount c := by
  have h := batchEntries_map_fst c n
  have := congrArg List.length h
  simpa using this

lemma batchPoints_length (c : List Feature) (n : Nat) :
    (batchPoints n c).length = batchCount c := by
  have h := batchPoints_map_pid c n
  have := congrArg List.length h
  simpa using this

lemma batchPoints_isEmpty_iff (c : List Feature) (n : Nat) :
    (batchPoints n c).isEmpty = true ↔ batchCount c = 0 := by
  rw [List.isEmpty_iff_length_eq_zero, batchPoints_length]

/-- The batch map values are exactly the features whose representative point is
computable, in order. -/
lemma batchEntries_map_snd (c : List Feature) (n : Nat) :
    (batchEntries n c).map Prod.snd =
      c.filter (fun f => (geometryToLatLng f.geometry).isSome) := by
  induction c generalizing n with
  | nil => simp [batchEntries]
  | cons f fs ih =>
    cases hc : geometryToLatLng f.geometry with
    | none => simp [batchEntries, hc, List.filter_cons, ih]
    | some ctr => simp [batchEntries, hc, List.filter_cons, ih]

lemma nonEmptyGeometry_of_center (f : Feature)
    (h : (geometryToLatLng f.geometry).isSome = true) :
    nonEmptyGeometry f = true := by
  cases hg : f.geometry with
  | none => simp [geometryToLatLng, hg] at h
  | some g =>
    cases hcs : g.coords with
    | nil => simp [geometryToLatLng, geomBounds, hg, hcs] at h
    | cons c cs => simp [nonEmptyGeometry, hg, hcs]

lemma batchEntries_nonEmptyGeometry (c : List Feature) (n : Nat) :
    ∀ e ∈ batchEntries n c, nonEmptyGeometry e.2 = true := by
  intro e he
  have h2 : e.2 ∈ (batchEntries n c).map Prod.snd := List.mem_map_of_mem _ he
  rw [batchEntries_map_snd] at h2
  have := List.of_mem_filter h2
  exact nonEmptyGeometry_of_center _ this

/-! Data-field behavior of renderClusters and addCollection. -/

lemma renderClusters_data (s : MapState) :
    (renderClusters s).featureMap = s.featureMap ∧
    (renderClusters s).points = s.points ∧
    (renderClusters s).nextFeatureId = s.nextFeatureId ∧
    (renderClusters s).bounds = s.bounds ∧
    (renderClusters s).mapReady = s.mapReady ∧
    (renderClusters s).generation = s.generation := by
  unfold renderClusters
  repeat' split
  all_goals exact ⟨rfl, rfl, rfl, rfl, rfl, rfl⟩

lemma addCollection_data (c : List Feature) (s : MapState) :
    (addCollection c s).featureMap = s.featureMap ++ batchEntries s.nextFeatureId c ∧
    (addCollection c s).points = s.points ++ batchPoints s.nextFeatureId c ∧
    (addCollection c s).nextFeatureId = s.nextFeatureId + batchCount c ∧
    (addCollection c s).mapReady = s.mapReady := by
  rw [addCollection]
  split
  case isTrue hce =>
    have hc : c = [] := List.isEmpty_iff.mp hce
    subst hc
    simp [batchEntries, batchPoints, batchCount]
  case isFalse hce =>
    simp only [foldl_stepFeature_eq, List.nil_append]
    split
    case isTrue hbp =>
      have h0 : batchCount c = 0 := (batchPoints_isEmpty_iff c s.nextFeatureId).mp hbp
      have he : batchEntries s.nextFeatureId c = [] :=
        List.length_eq_zero.mp (by rw [batchEntries_length]; exact h0)
      have hp : batchPoints s.nextFeatureId c = [] :=
        List.length_eq_zero.mp (by rw [batchPoints_length]; exact h0)
      simp [he, hp, h0]
    case isFalse hbp =>
      split
      case isTrue hmr =>
        obtain ⟨h1, h2, h3, h4, h5, h6⟩ := renderClusters_data _
        exact ⟨by rw [h1], by rw [h2], by rw [h3], by rw [h5]⟩
      case isFalse hmr =>
        exact ⟨rfl, rfl, rfl, rfl⟩

/-! The per-session invariant of the FeatureTable and points buffer. -/

/-- Session invariant: the table keys are strictly increasing (hence unique)
and all below the next fresh id, the point buffer carries exactly the table
keys as pointIds (in order), and every retained feature has a non-empty
geometry. -/
def StateInv (s : MapState) : Prop :=
  List.Pairwise (· < ·) (s.featureMap.map Prod.fst) ∧
  (∀ k ∈ s.featureMap.map Prod.fst, k < s.nextFeatureId) ∧
  s.points.map ClusterPoint.pid = s.featureMap.map Prod.fst ∧
  ∀ e ∈ s.featureMap, nonEmptyGeometry e.2 = true

lemma stateInv_addCollection (c : List Feature) (s : MapState) (h : StateInv s) :
    StateInv (addCollection c s) := by
  obtain ⟨hpw, hlt, hpid, hne⟩ := h
  obtain ⟨hfm, hpts, hnid, _⟩ := addCollection_data c s
  refine ⟨?_, ?_, ?_, ?_⟩
  · rw [hfm, List.map_append, batchEntries_map_fst, List.pairwise_append]
    refine ⟨hpw, List.pairwise_lt_range' _ _, ?_⟩
    intro a ha b hb
    have h1 : a < s.nextFeatureId := hlt a ha
    have h2 := List.mem_range'_1.mp hb
    omega
  · rw [hfm, hnid, List.map_append, batchEntries_map_fst]
    intro k hk
    rcases List.mem_append.mp hk with hk | hk
    · exact lt_of_lt_of_le (hlt k hk) (Nat.le_add_right _ _)
    · have := List.mem_range'_1.mp hk
      omega
  · rw [hfm, hpts, List.map_append, List.map_append, batchEntries_map_fst,
      batchPoints_map_pid, hpid]
  · rw [hfm]
    intro e he
    rcases List.mem_append.mp he with he | he
    · exact hne e he
    · exact batchEntries_nonEmptyGeometry c s.nextFeatureId e he

/-- With strictly increasing keys, the association list is functional: a key
determines the stored feature. -/
lemma pairwise_keys_functional (m : List (Nat × Feature))
    (hpw : List.Pairwise (· < ·) (m.map Prod.fst)) :
    ∀ k f g, (k, f) ∈ m → (k, g) ∈ m → f = g := by
  induction m with
  | nil => simp
  | cons e rest ih =>
    rw [List.map_cons, List.pairwise_cons] at hpw
    obtain ⟨hhead, htail⟩ := hpw
    intro k f g hf hg
    rcases List.mem_cons.mp hf with hf | hf <;> rcases List.mem_cons.mp hg with hg | hg
    · simpa using congrArg Prod.snd (hf.trans hg.symm)
    · exfalso
      have hk : k ∈ rest.map Prod.fst := List.mem_map.mpr ⟨(k, g), hg, rfl⟩
      have h1 := hhead k hk
      have h2 : k = e.1 := congrArg Prod.fst hf
      omega
    · exfalso
      have hk : k ∈ rest.map Prod.fst := List.mem_map.mpr ⟨(k, f), hf, rfl⟩
      have h1 := hhead k hk
      have h2 : k = e.1 := congrArg Prod.fst hg
      omega
    · exact ih htail k f g hf hg

/-- Under the invariant, every point in the buffer resolves through the table
to a feature with non-empty geometry. -/
lemma point_resolves (s : MapState) (h : StateInv s) :
    ∀ p ∈ s.points, ∃ f, (p.pid, f) ∈ s.featureMap ∧ nonEmptyGeometry f = true := by
  obtain ⟨hpw, hlt, hpid, hne⟩ := h
  intro p hp
  have h1 : p.pid ∈ s.points.map ClusterPoint.pid := List.mem_map_of_mem _ hp
  rw [hpid] at h1
  obtain ⟨e, he, hek⟩ := List.mem_map.mp h1
  exact ⟨e.2, by rw [← hek]; exact he, hne e he⟩

/-! Counting and membership lemmas for the cluster-index model. -/

lemma groupByKey_length_sum (key : ClusterPoint → Int × Int) :
    (l : List ClusterPoint) → ((groupByKey key l).map List.length).sum = l.length
  | [] => by simp [groupByKey]
  | p :: rest => by
    rw [groupByKey]
    have ih := groupByKey_length_sum key (rest.filter (fun q => !(key q == key p)))
    simp only [List.map_cons, List.sum_cons, List.length_cons, ih]
    have hsplit := List.length_eq_length_filter_add (l := rest)
      (fun q => key q == key p)
    omega
termination_by l => l.length
decreasing_by
  simp only [List.length_cons]
  exact Nat.lt_succ_of_le (List.length_filter_le _ _)

lemma groupByKey_mem (key : ClusterPoint → Int × Int) :
    (l : List ClusterPoint) → ∀ g ∈ groupByKey key l, ∀ p ∈ g, p ∈ l
  | [] => by simp [groupByKey]
  | q :: rest => by
    rw [groupByKey]
    intro g hg p hp
    rcases List.mem_cons.mp hg with hg | hg
    · subst hg
      rcases List.mem_cons.mp hp with hp | hp
      · exact hp ▸ List.mem_cons_self _ _
      · exact List.mem_cons_of_mem _ (List.mem_of_mem_filter hp)
    · have hrec := groupByKey_mem key
        (rest.filter (fun r => !(key r == key q))) g hg p hp
      exact List.mem_cons_of_mem _ (List.mem_of_mem_filter hrec)
termination_by l => l.length
decreasing_by
  simp only [List.length_cons]
  exact Nat.lt_succ_of_le (List.length_filter_le _ _)

lemma representedCount_groupResult (g : List ClusterPoint) :
    representedCount (groupResult g) = g.length := by
  match g with
  | [] => rfl
  | [p] => rfl
  | a :: b :: t => rfl

lemma groupResult_leaf (g : List ClusterPoint) (p : ClusterPoint)
    (h : groupResult g = ClusterOrPoint.leaf p) : p ∈ g := by
  match g with
  | [] => simp [groupResult] at h
  | [q] =>
    simp only [groupResult, ClusterOrPoint.leaf.injEq] at h
    subst h
    exact List.mem_singleton_self _
  | a :: b :: t => simp [groupResult] at h

/-- The conservation law: a world query of a rebuilt index represents every
indexed point exactly once, at any zoom. -/
lemma clusterQuery_world_total (pts : List ClusterPoint) (gen zoom : Nat) :
    totalRepresented (clusterQuery (rebuild pts gen) QueryBounds.world zoom) =
      pts.length := by
  unfold totalRepresented clusterQuery rebuild
  have hfilter : pts.filter (inBounds QueryBounds.world) = pts := by
    rw [List.filter_eq_self]
    intro a _
    rfl
  rw [hfilter, List.map_map]
  rw [List.map_congr_left (fun g _ => (by simp [representedCount_groupResult] :
    (representedCount ∘ groupResult) g = List.length g))]
  exact groupByKey_length_sum _ pts

/-- A leaf returned by a query is one of the indexed points. -/
lemma clusterQuery_leaf_mem (idx : ClusterIndex) (qb : QueryBounds) (zoom : Nat)
    (p : ClusterPoint) (h : ClusterOrPoint.leaf p ∈ clusterQuery idx qb zoom) :
    p ∈ idx.pts := by
  unfold clusterQuery at h
  obtain ⟨g, hg, hgr⟩ := List.mem_map.mp h
  have hpg := groupResult_leaf g p hgr
  have hmem := groupByKey_mem _ _ g hg p hpg
  exact List.mem_of_mem_filter hmem

/-! Behavior of the load loop. -/

/-- The schedule under which teardown never happens. -/
def noCancel : Nat → Bool := fun _ => false

lemma runLoad_cancelled (script : List PageResult) (sched : Nat → Bool)
    (s : LoadState) (h : s.cancelled = true) :
    runLoad script sched s = finalizeLoad s := by
  cases script <;> simp [runLoad, h]

lemma runLoad_cons_ok_some (fs : List Feature) (cur : String)
    (rest : List PageResult) (sched : Nat → Bool) (s : LoadState)
    (h : s.cancelled = false) :
    runLoad (.ok fs (some cur) :: rest) sched s =
      runLoad rest sched (susp sched (applyPage fs (susp sched (startFetch s)))) := by
  simp [runLoad, h]

lemma runLoad_cons_ok_none (fs : List Feature)
    (rest : List PageResult) (sched : Nat → Bool) (s : LoadState)
    (h : s.cancelled = false) :
    runLoad (.ok fs none :: rest) sched s =
      finalizeLoad { applyPage fs (susp sched (startFetch s)) with hasMore := false } := by
  simp [runLoad, h]

lemma runLoad_cons_err (st : Nat)
    (rest : List PageResult) (sched : Nat → Bool) (s : LoadState)
    (h : s.cancelled = false) :
    runLoad (.httpError st :: rest) sched s =
      finalizeLoad { susp sched (startFetch s) with
        toastCount := (susp sched (startFetch s)).toastCount + 1 } := by
  simp [runLoad, h]

lemma finalizeLoad_parts (s : LoadState) :
    (finalizeLoad s).ms = s.ms ∧ (finalizeLoad s).staleWrites = s.staleWrites ∧
    (finalizeLoad s).fetchCount = s.fetchCount ∧
    (finalizeLoad s).toastCount = s.toastCount ∧
    (finalizeLoad s).fetchesWhileCancelled = s.fetchesWhileCancelled := by
  unfold finalizeLoad
  split <;> exact ⟨rfl, rfl, rfl, rfl, rfl⟩

/-- The point buffer never outgrows the FeatureTable: one entry is appended to
each per indexed feature. -/
lemma addCollection_points_le (c : List Feature) (s : MapState)
    (h : s.points.length ≤ s.featureMap.length) :
    (addCollection c s).points.length ≤ (addCollection c s).featureMap.length := by
  obtain ⟨hfm, hpts, _, _⟩ := addCollection_data c s
  rw [hfm, hpts, List.length_append, List.length_append, batchEntries_length,
    batchPoints_length]
  omega

lemma runLoad_points_le (script : List PageResult) (sched : Nat → Bool) :
    ∀ s : LoadState, s.ms.points.length ≤ s.ms.featureMap.length →
      (runLoad script sched s).ms.points.length ≤
        (runLoad script sched s).ms.featureMap.length := by
  induction script with
  | nil =>
    intro s h
    by_cases hc : s.cancelled = true
    · rw [runLoad_cancelled _ _ _ hc, (finalizeLoad_parts s).1]
      exact h
    · rw [Bool.not_eq_true] at hc
      simpa [runLoad, hc] using h
  | cons p rest ih =>
    intro s h
    by_cases hc : s.cancelled = true
    · rw [runLoad_cancelled _ _ _ hc, (finalizeLoad_parts s).1]
      exact h
    · rw [Bool.not_eq_true] at hc
      cases p with
      | httpError st =>
        rw [runLoad_cons_err _ _ _ _ hc, (finalizeLoad_parts _).1]
        exact h
      | ok feats next =>
        cases next with
        | none =>
          rw [runLoad_cons_ok_none _ _ _ _ hc, (finalizeLoad_parts _).1]
          exact addCollection_points_le feats s.ms h
        | some cur =>
          rw [runLoad_cons_ok_some _ _ _ _ _ hc]
          exact ih _ (addCollection_points_le feats s.ms h)

/-- At most one batch — the page already in flight — is applied to session
state after cancellation fires. -/
lemma runLoad_staleWrites_le (script : List PageResult) (sched : Nat → Bool) :
    ∀ s : LoadState, (runLoad script sched s).staleWrites ≤
      s.staleWrites + (if s.cancelled = true then 0 else 1) := by
  induction script with
  | nil =>
    intro s
    by_cases hc : s.cancelled = true
    · rw [runLoad_cancelled _ _ _ hc, (finalizeLoad_parts s).2.1, hc]
      simp
    · rw [Bool.not_eq_true] at hc
      simp [runLoad, hc]
  | cons p rest ih =>
    intro s
    by_cases hc : s.cancelled = true
    · rw [runLoad_cancelled _ _ _ hc, (finalizeLoad_parts s).2.1, hc]
      simp
    · rw [Bool.not_eq_true] at hc
      cases p with
      | httpError st =>
        rw [runLoad_cons_err _ _ _ _ hc, (finalizeLoad_parts _).2.1]
        simp [susp, startFetch, hc]
      | ok feats next =>
        cases next with
        | none =>
          rw [runLoad_cons_ok_none _ _ _ _ hc, (finalizeLoad_parts _).2.1]
          simp only [applyPage, susp, startFetch, hc, Bool.false_or]
          split <;> simp [hc]
        | some cur =>
          rw [runLoad_cons_ok_some _ _ _ _ _ hc]
          refine le_trans (ih _) ?_
          by_cases h1 : sched s.suspIdx = true
          all_goals by_cases h2 : sched (s.suspIdx + 1) = true
          all_goals simp [susp, applyPage, startFetch, hc, h1, h2]

/-- Every fetch is issued with the cancellation flag unset (the loop-head
guard), so the count of fetches issued while cancelled never moves. -/
lemma runLoad_fetchesWhileCancelled (script : List PageResult) (sched : Nat → Bool) :
    ∀ s : LoadState, (runLoad script sched s).fetchesWhileCancelled =
      s.fetchesWhileCancelled := by
  induction script with
  | nil =>
    intro s
    by_cases hc : s.cancelled = true
    · rw [runLoad_cancelled _ _ _ hc, (finalizeLoad_parts s).2.2.2.2]
    · rw [Bool.not_eq_true] at hc
      simp [runLoad, hc]
  | cons p rest ih =>
    intro s
    by_cases hc : s.cancelled = true
    · rw [runLoad_cancelled _ _ _ hc, (finalizeLoad_parts s).2.2.2.2]
    · rw [Bool.not_eq_true] at hc
      cases p with
      | httpError st =>
        rw [runLoad_cons_err _ _ _ _ hc, (finalizeLoad_parts _).2.2.2.2]
        simp [susp, startFetch, hc]
      | ok feats next =>
        cases next with
        | none =>
          rw [runLoad_cons_ok_none _ _ _ _ hc, (finalizeLoad_parts _).2.2.2.2]
          simp [applyPage, susp, startFetch, hc]
        | some cur =>
          rw [runLoad_cons_ok_some _ _ _ _ _ hc, ih]
          simp [susp, applyPage, startFetch, hc]

/-- The map-session state produced by indexing the payloads of a list of pages
in order. -/
def applyBatches (m : MapState) (pre : List PageResult) : MapState :=
  pre.foldl
    (fun acc p =>
      match p with
      | .ok fs _ => addCollection fs acc
      | .httpError _ => acc)
    m

/-- Running the loop into a failing page: the pages before the error are
indexed, the error stops the loop (no fetch beyond the failing one, whatever
pages the script would still offer), exactly one toast is shown, the
indexed data is kept untouched, and the loading flag is cleared. -/
lemma runLoad_error_general (pre rest : List PageResult) (st : Nat) :
    ∀ s : LoadState, s.cancelled = false →
      (∀ p ∈ pre, ∃ fs cur, p = PageResult.ok fs (some cur)) →
      (runLoad (pre ++ .httpError st :: rest) noCancel s).fetchCount =
          s.fetchCount + pre.length + 1 ∧
        (runLoad (pre ++ .httpError st :: rest) noCancel s).toastCount =
          s.toastCount + 1 ∧
        (runLoad (pre ++ .httpError st :: rest) noCancel s).ms =
          applyBatches s.ms pre ∧
        (runLoad (pre ++ .httpError st :: rest) noCancel s).isLoading = false := by
  induction pre with
  | nil =>
    intro s hc _
    rw [List.nil_append, runLoad_cons_err _ _ _ _ hc]
    simp [finalizeLoad, susp, startFetch, noCancel, hc, applyBatches]
  | cons p pre' ih =>
    intro s hc hpre
    obtain ⟨fs, cur, rfl⟩ := hpre p (List.mem_cons_self _ _)
    rw [List.cons_append, runLoad_cons_ok_some _ _ _ _ _ hc]
    have h3c : (susp noCancel (applyPage fs (susp noCancel (startFetch s)))).cancelled
        = false := by
      simp [susp, applyPage, startFetch, noCancel, hc]
    obtain ⟨h1, h2, h3, h4⟩ := ih _ h3c (fun q hq => hpre q (List.mem_cons_of_mem _ hq))
    refine ⟨?_, ?_, ?_, h4⟩
    · rw [h1]
      simp [susp, applyPage, startFetch, List.length_cons]
      omega
    · rw [h2]
      simp [susp, applyPage, startFetch]
    · rw [h3]
      simp [susp, applyPage, startFetch, applyBatches]

/-! The auto-fit-once discipline across a session's render passes. -/

/-- One state-affecting event of a session after the reset: a data batch
arriving from the load loop (addCollection) or a viewport-triggered
re-render (the moveend/zoomend handlers and the mount effect, which all
call renderClusters). -/
inductive RenderOp where
  | batch (fs : List Feature)
  | viewportRender
  deriving Repr

def applyOp (s : MapState) (op : RenderOp) : MapState :=
  match op with
  | .batch fs => addCollection fs s
  | .viewportRender => renderClusters s

/-- A session's state evolution over a list of render events. -/
def runOps (s : MapState) (ops : List RenderOp) : MapState :=
  ops.foldl applyOp s

/-- A batch is effective when it yields at least one representative point. -/
def opEffective : RenderOp → Prop
  | .batch fs => batchCount fs ≠ 0
  | .viewportRender => False

/-- The fit-once invariant: either no fit has happened yet — the flag is armed,
nothing has been fitted and no point has arrived — or exactly one fit has
happened and the flag is disarmed for the rest of the session. -/
def FitInv (s : MapState) : Prop :=
  (s.shouldFitBounds = true ∧ s.fitCount = 0 ∧ s.points = []) ∨
  (s.shouldFitBounds = false ∧ s.fitCount = 1 ∧ s.points ≠ [])

lemma renderClusters_of_points_nil (s : MapState) (h : s.points = []) :
    renderClusters s = s := by
  simp [renderClusters, h]

lemma renderClusters_of_shouldFit_false (s : MapState)
    (h : s.shouldFitBounds = false) : renderClusters s = s := by
  unfold renderClusters
  split
  · rfl
  · split
    · rfl
    · rw [h]
      simp

lemma boundsAfter_some_isSome (c : List Feature) :
    ∀ b : LBounds, (boundsAfter (some b) c).isSome = true := by
  induction c with
  | nil => intro b; rfl
  | cons f fs ih =>
    intro b
    cases hc : geometryToLatLng f.geometry with
    | none => simpa [boundsAfter, hc] using ih b
    | some ctr => simpa [boundsAfter, hc] using ih _

lemma boundsAfter_isSome_of_count (c : List Feature) (h : batchCount c ≠ 0) :
    ∀ b : Option LBounds, (boundsAfter b c).isSome = true := by
  induction c with
  | nil => simp [batchCount] at h
  | cons f fs ih =>
    intro b
    cases hc : geometryToLatLng f.geometry with
    | none =>
      have h' : batchCount fs ≠ 0 := by
        simpa [batchCount, List.filter_cons, hc] using h
      simpa [boundsAfter, hc] using ih h' b
    | some ctr => simpa [boundsAfter, hc] using boundsAfter_some_isSome fs _

lemma addCollection_of_count_zero (c : List Feature) (s : MapState)
    (h : batchCount c = 0) : addCollection c s = s := by
  rw [addCollection]
  split
  · rfl
  · simp only [foldl_stepFeature_eq, List.nil_append]
    have hp : batchPoints s.nextFeatureId c = [] :=
      List.length_eq_zero.mp (by rw [batchPoints_length]; exact h)
    simp [hp]

lemma addCollection_of_count_ne (c : List Feature) (s : MapState)
    (h : batchCount c ≠ 0) :
    ∃ s1 : MapState, ∃ b : LBounds,
      addCollection c s = (if s1.mapReady = true then renderClusters s1 else s1) ∧
      s1.featureMap = s.featureMap ++ batchEntries s.nextFeatureId c ∧
      s1.points = s.points ++ batchPoints s.nextFeatureId c ∧
      s1.nextFeatureId = s.nextFeatureId + batchCount c ∧
      s1.bounds = some b ∧
      s1.shouldFitBounds = s.shouldFitBounds ∧
      s1.fitCount = s.fitCount ∧
      s1.mapReady = s.mapReady ∧
      s1.generation = s.generation + 1 := by
  obtain ⟨b, hb⟩ := Option.isSome_iff_exists.mp (boundsAfter_isSome_of_count c h s.bounds)
  refine ⟨{ s with featureMap := s.featureMap ++ batchEntries s.nextFeatureId c,
                   points := s.points ++ batchPoints s.nextFeatureId c,
                   nextFeatureId := s.nextFeatureId + batchCount c,
                   bounds := some b,
                   generation := s.generation + 1 },
          b, ?_, rfl, rfl, rfl, rfl, rfl, rfl, rfl, rfl⟩
  rw [addCollection]
  split
  case isTrue hce =>
    exfalso
    apply h
    rw [List.isEmpty_iff.mp hce]
    rfl
  case isFalse hce =>
    simp only [foldl_stepFeature_eq, List.nil_append]
    have hp : ¬(batchPoints s.nextFeatureId c).isEmpty = true := by
      rw [batchPoints_isEmpty_iff]
      exact h
    rw [if_neg hp, hb]

lemma renderClusters_fit (s : MapState) (hm : s.mapReady = true)
    (hp : s.points ≠ []) (hf : s.shouldFitBounds = true) (b : LBounds)
    (hb : s.bounds = some b) :
    renderClusters s =
      { s with viewCenter := b.center, shouldFitBounds := false,
               fitCount := s.fitCount + 1 } := by
  simp [renderClusters, hm, hf, hb, List.length_eq_zero, hp]

lemma applyOp_fit (op : RenderOp) (s : MapState) (hm : s.mapReady = true)
    (hinv : FitInv s) :
    FitInv (applyOp s op) ∧ (applyOp s op).mapReady = true ∧
      (s.shouldFitBounds = false → (applyOp s op).shouldFitBounds = false) ∧
      (opEffective op → (applyOp s op).shouldFitBounds = false) := by
  cases op with
  | viewportRender =>
    simp only [applyOp]
    rcases hinv with ⟨h1, h2, h3⟩ | ⟨h1, h2, h3⟩
    · rw [renderClusters_of_points_nil s h3]
      exact ⟨Or.inl ⟨h1, h2, h3⟩, hm, fun hf => hf, fun he => he.elim⟩
    · rw [renderClusters_of_shouldFit_false s h1]
      exact ⟨Or.inr ⟨h1, h2, h3⟩, hm, fun _ => h1, fun he => he.elim⟩
  | batch fs =>
    simp only [applyOp, opEffective]
    by_cases hcnt : batchCount fs = 0
    · rw [addCollection_of_count_zero fs s hcnt]
      exact ⟨hinv, hm, fun hf => hf, fun he => absurd hcnt he⟩
    · obtain ⟨s1, b, heq, e1, e2, e3, e4, e5, e6, e7, e8⟩ :=
        addCollection_of_count_ne fs s hcnt
      have hpts : batchPoints s.nextFeatureId fs ≠ [] := by
        intro hnil
        apply hcnt
        rw [← batchPoints_length fs s.nextFeatureId, hnil]
        rfl
      have hm1 : s1.mapReady = true := by rw [e7, hm]
      rw [heq, if_pos hm1]
      rcases hinv with ⟨h1, h2, h3⟩ | ⟨h1, h2, h3⟩
      · have hp1 : s1.points ≠ [] := by
          rw [e2, h3, List.nil_append]
          exact hpts
        have hf1 : s1.shouldFitBounds = true := by rw [e5, h1]
        rw [renderClusters_fit s1 hm1 hp1 hf1 b e4]
        refine ⟨Or.inr ⟨rfl, ?_, hp1⟩, hm1, fun _ => rfl, fun _ => rfl⟩
        show s1.fitCount + 1 = 1
        rw [e6, h2]
      · have hf1 : s1.shouldFitBounds = false := by rw [e5, h1]
        rw [renderClusters_of_shouldFit_false s1 hf1]
        refine ⟨Or.inr ⟨hf1, by rw [e6, h2], ?_⟩, hm1, fun _ => hf1, fun _ => hf1⟩
        rw [e2]
        intro hnil
        exact h3 (List.append_eq_nil.mp hnil).1

lemma runOps_cons (s : MapState) (op : RenderOp) (rest : List RenderOp) :
    runOps s (op :: rest) = runOps (applyOp s op) rest := rfl

lemma runOps_fit (ops : List RenderOp) :
    ∀ s : MapState, s.mapReady = true → FitInv s →
      FitInv (runOps s ops) ∧ (runOps s ops).mapReady = true ∧
        ((s.shouldFitBounds = false ∨ ∃ op ∈ ops, opEffective op) →
          (runOps s ops).shouldFitBounds = false) := by
  induction ops with
  | nil =>
    intro s hm hinv
    refine ⟨hinv, hm, ?_⟩
    intro h
    rcases h with h | ⟨op, hop, _⟩
    · exact h
    · simp at hop
  | cons op rest ih =>
    intro s hm hinv
    obtain ⟨hinv', hm', himp1, himp2⟩ := applyOp_fit op s hm hinv
    obtain ⟨rinv, rm, rimp⟩ := ih (applyOp s op) hm' hinv'
    rw [runOps_cons]
    refine ⟨rinv, rm, ?_⟩
    intro h
    apply rimp
    rcases h with h | ⟨q, hq, hqe⟩
    · exact Or.inl (himp1 h)
    · rcases List.mem_cons.mp hq with rfl | hq
      · exact Or.inl (himp2 hqe)
      · exact Or.inr ⟨q, hq, hqe⟩

end MapPipeline

namespace GeojsonRoute

/-! Round-trip of the base64url cursor codec. -/

lemma b64Index_b64Char (s : Nat) (h : s < 64) : b64Index (b64Char s) = s := by
  have hball : ∀ t : Nat, t < 64 → b64Index (b64Char t) = t := by decide
  exact hball s h

lemma toSextets_lt : ∀ l : List Nat, (∀ x ∈ l, x < 256) →
    ∀ y ∈ toSextets l, y < 64
  | [], _ => by simp [toSextets]
  | [a], h => by
    have ha := h a (by simp)
    simp only [toSextets, List.mem_cons, List.not_mem_nil, or_false]
    intro y hy
    rcases hy with rfl | rfl
    · omega
    · omega
  | [a, b], h => by
    have ha := h a (by simp)
    have hb := h b (by simp)
    simp only [toSextets, List.mem_cons, List.not_mem_nil, or_false]
    intro y hy
    rcases hy with rfl | rfl | rfl
    · omega
    · omega
    · omega
  | a :: b :: c :: rest, h => by
    have ha := h a (by simp)
    have hb := h b (by simp)
    have hc := h c (by simp)
    have ih := toSextets_lt rest (fun x hx => h x (by simp [hx]))
    intro y hy
    simp only [toSextets, List.mem_cons, List.mem_append] at hy
    rcases hy with rfl | rfl | rfl | rfl | hy
    · omega
    · omega
    · omega
    · omega
    · exact ih y hy

lemma fromSextets_toSextets : ∀ l : List Nat, (∀ x ∈ l, x < 256) →
    fromSextets (toSextets l) = l
  | [], _ => rfl
  | [a], h => by
    have ha := h a (by simp)
    simp only [toSextets, fromSextets, List.cons.injEq, and_true]
    omega
  | [a, b], h => by
    have ha := h a (by simp)
    have hb := h b (by simp)
    simp only [toSextets, fromSextets, List.cons.injEq, and_true]
    constructor
    · omega
    · omega
  | a :: b :: c :: rest, h => by
    have ha := h a (by simp)
    have hb := h b (by simp)
    have hc := h c (by simp)
    have ih := fromSextets_toSextets rest (fun x hx => h x (by simp [hx]))
    simp only [toSextets, fromSextets, ih, List.cons.injEq, and_true]
    refine ⟨?_, ?_, ?_⟩
    · omega
    · omega
    · omega

lemma decimalBytes_lt (n : Nat) : ∀ x ∈ decimalBytes n, x < 256 := by
  intro x hx
  unfold decimalBytes at hx
  split at hx
  · simp at hx
    omega
  · simp only [List.mem_map, List.mem_reverse] at hx
    obtain ⟨d, hd, rfl⟩ := hx
    have := Nat.digits_lt_base (by norm_num) hd
    omega

lemma parseDecimal_decimalBytes (n : Nat) : parseDecimal (decimalBytes n) = n := by
  unfold parseDecimal decimalBytes
  split
  case isTrue h =>
    subst h
    simp [Nat.ofDigits]
  case isFalse h =>
    rw [List.map_map]
    have hcong : ∀ d ∈ (Nat.digits 10 n).reverse,
        ((fun x => x - 48) ∘ fun d => d + 48) d = id d := by
      intro d _
      simp
    rw [List.map_congr_left hcong, List.map_id, List.reverse_reverse,
      Nat.ofDigits_digits]

/-- The cursor codec round-trips: decoding the token produced for an id gives
the id back. -/
lemma decodeCursor_encodeCursor (n : Nat) : decodeCursor (encodeCursor n) = n := by
  unfold decodeCursor encodeCursor
  rw [List.map_map]
  have hcong : ∀ y ∈ toSextets (decimalBytes n),
      (b64Index ∘ b64Char) y = id y := by
    intro y hy
    exact b64Index_b64Char y (toSextets_lt _ (decimalBytes_lt n) y hy)
  rw [List.map_congr_left hcong, List.map_id,
    fromSextets_toSextets _ (decimalBytes_lt n)]
  exact parseDecimal_decimalBytes n

end GeojsonRoute

namespace GeojsonRoute

lemma clampLimit_pos (lp : Option Nat) : 1 ≤ clampLimit lp := by
  cases lp with
  | none => decide
  | some k =>
    cases k with
    | zero => decide
    | succ m =>
      simp only [clampLimit, DEFAULT_LIMIT, MAX_LIMIT]
      omega

lemma sorted_filter_eq_drop :
    ∀ (l : List SicarRow) (k : Nat) (r : SicarRow),
      List.Pairwise (fun a b => a.id < b.id) l →
      (l.take k).getLast? = some r →
      l.filter (fun x => decide (r.id < x.id)) = l.drop k
  | [], k, r, _, hlast => by simp at hlast
  | a :: t, 0, r, _, hlast => by simp at hlast
  | a :: t, k + 1, r, hpw, hlast => by
    rw [List.take_succ_cons] at hlast
    rw [List.pairwise_cons] at hpw
    obtain ⟨hhead, htail⟩ := hpw
    cases htk : t.take k with
    | nil =>
      rw [htk] at hlast
      simp only [List.getLast?_singleton, Option.some.injEq] at hlast
      subst hlast
      rw [List.drop_succ_cons, List.filter_cons]
      have hirr : ¬(a.id < a.id) := lt_irrefl _
      simp only [decide_eq_true_eq, hirr, if_false]
      rcases List.take_eq_nil_iff.mp htk with h | h
      · subst h
        rw [List.drop_zero, List.filter_eq_self]
        intro x hx
        exact decide_eq_true (hhead x hx)
      · subst h
        simp
    | cons y ys =>
      rw [htk, List.getLast?_cons_cons] at hlast
      have hrt : r ∈ t := by
        apply List.take_subset k t
        rw [htk]
        exact List.mem_of_mem_getLast? hlast
      have har : a.id < r.id := hhead r hrt
      rw [List.drop_succ_cons, List.filter_cons]
      have hna : ¬(r.id < a.id) := by omega
      simp only [decide_eq_true_eq, hna, if_false]
      exact sorted_filter_eq_drop t k r htail (by rw [htk]; exact hlast)

lemma GET_eq (db : List SicarRow) (lp : Option Nat) (cp : Option (List Nat)) :
    GET db lp cp =
      { features := (runQuery db (clampLimit lp) (cp.map decodeCursor)).map buildFeature,
        nextCursor := (runQuery db (clampLimit lp) (cp.map decodeCursor)).getLast?.map
          (fun r => encodeCursor r.id) } := rfl

lemma fullLoad_count :
    ∀ (fuel : Nat) (db : List SicarRow) (lp : Option Nat) (cv : Nat),
      List.Pairwise (fun a b => a.id < b.id) db →
      (db.filter (fun r => decide (cv < r.id))).length < fuel →
      ∃ n, fullLoad db lp (some (encodeCursor cv)) fuel = some (n + 1, n) := by
  intro fuel
  induction fuel with
  | zero =>
    intro db lp cv _ hlen
    omega
  | succ f ih =>
    intro db lp cv hpw hlen
    have hget : GET db lp (some (encodeCursor cv)) =
        { features := ((db.filter (fun r => decide (cv < r.id))).take
            (clampLimit lp)).map buildFeature,
          nextCursor := ((db.filter (fun r => decide (cv < r.id))).take
            (clampLimit lp)).getLast?.map (fun r => encodeCursor r.id) } := by
      rw [GET_eq]
      simp [runQuery, decodeCursor_encodeCursor]
    cases hrc : db.filter (fun r => decide (cv < r.id)) with
    | nil =>
      refine ⟨0, ?_⟩
      rw [hrc] at hget
      simp [fullLoad, hget]
    | cons x xs =>
      obtain ⟨L, hL⟩ : ∃ L, clampLimit lp = L + 1 :=
        ⟨clampLimit lp - 1, by have := clampLimit_pos lp; omega⟩
      have hrows : (db.filter (fun r => decide (cv < r.id))).take (clampLimit lp) =
          x :: xs.take L := by
        rw [hrc, hL, List.take_succ_cons]
      obtain ⟨r, hr⟩ : ∃ r, (x :: xs.take L).getLast? = some r :=
        Option.isSome_iff_exists.mp (List.getLast?_isSome.mpr (by simp))
      have hrrem : r ∈ db.filter (fun z => decide (cv < z.id)) := by
        rw [hrc]
        have hmem : r ∈ x :: xs.take L := List.mem_of_mem_getLast? hr
        rw [← hrows, hrc] at hmem
        exact List.take_subset _ _ hmem
      have hcvr : cv < r.id := by
        have h' := (List.mem_filter.mp hrrem).2
        simpa using h'
      have hfilter2 : db.filter (fun z => decide (r.id < z.id)) =
          (db.filter (fun z => decide (cv < z.id))).drop (clampLimit lp) := by
        have h1 : db.filter (fun z => decide (r.id < z.id)) =
            (db.filter (fun z => decide (cv < z.id))).filter
              (fun z => decide (r.id < z.id)) := by
          rw [List.filter_filter]
          apply List.filter_congr
          intro z _
          cases hz : decide (r.id < z.id) with
          | false => simp
          | true =>
            have hrz : r.id < z.id := of_decide_eq_true hz
            have hcz : cv < z.id := lt_trans hcvr hrz
            simp [hcz]
        rw [h1]
        apply sorted_filter_eq_drop _ (clampLimit lp) r (hpw.filter _)
        rw [hrows]
        exact hr
      have hlen2 : (db.filter (fun z => decide (r.id < z.id))).length < f := by
        rw [hfilter2, List.length_drop, hrc, hL]
        rw [hrc] at hlen
        simp only [List.length_cons] at hlen ⊢
        omega
      obtain ⟨n, hn⟩ := ih db lp r.id hpw hlen2
      refine ⟨n + 1, ?_⟩
      rw [fullLoad.eq_def]
      simp [hget, hrows, hr, hn]

lemma fullLoad_none (db : List SicarRow) (lp : Option Nat)
    (hpw : List.Pairwise (fun a b => a.id < b.id) db) (hne : db ≠ []) :
    ∃ n, 1 ≤ n ∧ fullLoad db lp none (db.length + 1) = some (n + 1, n) := by
  obtain ⟨x, xs, rfl⟩ : ∃ y ys, db = y :: ys := by
    cases db with
    | nil => exact absurd rfl hne
    | cons y ys => exact ⟨y, ys, rfl⟩
  have hget : GET (x :: xs) lp none =
      { features := ((x :: xs).take (clampLimit lp)).map buildFeature,
        nextCursor := ((x :: xs).take (clampLimit lp)).getLast?.map
          (fun r => encodeCursor r.id) } := by
    rw [GET_eq]
    simp [runQuery]
  obtain ⟨L, hL⟩ : ∃ L, clampLimit lp = L + 1 :=
    ⟨clampLimit lp - 1, by have := clampLimit_pos lp; omega⟩
  have hrows : (x :: xs).take (clampLimit lp) = x :: xs.take L := by
    rw [hL, List.take_succ_cons]
  obtain ⟨r, hr⟩ : ∃ r, (x :: xs.take L).getLast? = some r :=
    Option.isSome_iff_exists.mp (List.getLast?_isSome.mpr (by simp))
  have hfilter2 : (x :: xs).filter (fun z => decide (r.id < z.id)) =
      (x :: xs).drop (clampLimit lp) := by
    apply sorted_filter_eq_drop _ (clampLimit lp) r hpw
    rw [hrows]
    exact hr
  have hlen2 : ((x :: xs).filter (fun z => decide (r.id < z.id))).length <
      (x :: xs).length := by
    rw [hfilter2, List.length_drop, hL]
    simp only [List.length_cons]
    omega
  obtain ⟨n, hn⟩ := fullLoad_count (x :: xs).length (x :: xs) lp r.id hpw hlen2
  refine ⟨n + 1, by omega, ?_⟩
  simp only [List.length_cons] at hn
  rw [fullLoad.eq_def]
  simp [hget, hrows, hr, hn]

end GeojsonRoute

namespace MapPipeline

/-! Claim theorems. -/

/-- A one-coordinate feature used by the concrete scenarios. -/
def pointFeature (lat lng : ℚ) : Feature :=
  ⟨some ⟨[⟨lat, lng⟩]⟩⟩

/-- C1, counterexample to the claim as stated: with cancellation firing during
the first fetch (suspension index 0), the load loop still applies the
in-flight page to session state after the suspension completes
post-cancellation — one stale batch write lands (the points buffer grows to
1) — because the code checks the cancellation flag only at the top of each
loop iteration, not again after the awaits. No second fetch is made despite
the page carrying a nextCursor. -/
theorem c1_stale_write_after_cancellation :
    (runLoad [PageResult.ok [pointFeature 1 1] (some "A"), PageResult.ok [] none]
        (fun i => i == 0) (freshSession true)).cancelled = true ∧
    (runLoad [PageResult.ok [pointFeature 1 1] (some "A"), PageResult.ok [] none]
        (fun i => i == 0) (freshSession true)).staleWrites = 1 ∧
    (runLoad [PageResult.ok [pointFeature 1 1] (some "A"), PageResult.ok [] none]
        (fun i => i == 0) (freshSession true)).ms.points.length = 1 ∧
    (runLoad [PageResult.ok [pointFeature 1 1] (some "A"), PageResult.ok [] none]
        (fun i => i == 0) (freshSession true)).fetchCount = 1 := by
  decide

/-- C1 (amended): once cancellation is set, the loop exits at its next
iteration check without fetching or mutating anything further; at most one
batch — the page already in flight when cancellation fired — is applied to
session state after cancellation; no fetch is ever issued with the flag set;
and the points buffer size stays at most the FeatureTable size throughout,
including when cancelled mid-session. -/
theorem c1_cancellation_amended (script : List PageResult) (sched : Nat → Bool)
    (s : LoadState)
    (hlen : s.ms.points.length ≤ s.ms.featureMap.length) :
    (s.cancelled = true → runLoad script sched s = finalizeLoad s) ∧
    (runLoad script sched s).ms.points.length ≤
      (runLoad script sched s).ms.featureMap.length ∧
    (runLoad script sched s).staleWrites ≤
      s.staleWrites + (if s.cancelled = true then 0 else 1) ∧
    (runLoad script sched s).fetchesWhileCancelled = s.fetchesWhileCancelled :=
  ⟨fun hc => runLoad_cancelled script sched s hc,
   runLoad_points_le script sched s hlen,
   runLoad_staleWrites_le script sched s,
   runLoad_fetchesWhileCancelled script sched s⟩

/-- Witness for C1 (amended) at a concrete session and script. -/
theorem c1_cancellation_amended_witness :
    (freshSession true).ms.points.length ≤
        (freshSession true).ms.featureMap.length ∧
    (((freshSession true).cancelled = true →
        runLoad [PageResult.ok [] none] noCancel (freshSession true) =
          finalizeLoad (freshSession true)) ∧
      (runLoad [PageResult.ok [] none] noCancel (freshSession true)).ms.points.length ≤
        (runLoad [PageResult.ok [] none] noCancel (freshSession true)).ms.featureMap.length ∧
      (runLoad [PageResult.ok [] none] noCancel (freshSession true)).staleWrites ≤
        (freshSession true).staleWrites +
          (if (freshSession true).cancelled = true then 0 else 1) ∧
      (runLoad [PageResult.ok [] none] noCancel
          (freshSession true)).fetchesWhileCancelled =
        (freshSession true).fetchesWhileCancelled) :=
  ⟨by decide,
   c1_cancellation_amended [PageResult.ok [] none] noCancel (freshSession true)
     (by decide)⟩

/-- C2: after a rebuild over the accumulated point buffer, querying with the
full-world bounds at zoom 0 returns clusters and leaves whose total
represented-point count (cluster member counts plus leaf points) equals the
number of points indexed — no point counted twice, none missing. -/
theorem c2_rebuild_query_conservation (s : MapState) (gen : Nat) :
    totalRepresented (clusterQuery (rebuild s.points gen) QueryBounds.world 0) =
      s.points.length :=
  clusterQuery_world_total s.points gen 0

/-- C3: feeding the loop two pages — page 1 with a nextCursor and 3 features,
page 2 with no nextCursor and 2 features — ends the session with
totalFetched = 5, hasMore = false, and exactly 2 fetches issued. -/
theorem c3_two_pages_end_to_end :
    (runLoad
        [PageResult.ok
            [pointFeature 1 1, pointFeature 2 2, pointFeature 3 3] (some "A"),
         PageResult.ok [pointFeature 4 4, pointFeature 5 5] none]
        noCancel (freshSession true)).totalFetched = 5 ∧
    (runLoad
        [PageResult.ok
            [pointFeature 1 1, pointFeature 2 2, pointFeature 3 3] (some "A"),
         PageResult.ok [pointFeature 4 4, pointFeature 5 5] none]
        noCancel (freshSession true)).hasMore = false ∧
    (runLoad
        [PageResult.ok
            [pointFeature 1 1, pointFeature 2 2, pointFeature 3 3] (some "A"),
         PageResult.ok [pointFeature 4 4, pointFeature 5 5] none]
        noCancel (freshSession true)).fetchCount = 2 := by
  decide

/-- C4: when a page fetch returns a non-success response, the loop halts with
exactly one fetch beyond the successful prefix (whatever pages the script
would still offer), surfaces exactly one error notification, keeps all data
indexed before the failure untouched (no rollback), and clears the loading
flag. -/
theorem c4_http_error_halts (pre rest : List PageResult) (status : Nat)
    (h : ∀ p ∈ pre, ∃ fs cur, p = PageResult.ok fs (some cur)) :
    (runLoad (pre ++ PageResult.httpError status :: rest) noCancel
        (freshSession true)).fetchCount = pre.length + 1 ∧
    (runLoad (pre ++ PageResult.httpError status :: rest) noCancel
        (freshSession true)).toastCount = 1 ∧
    (runLoad (pre ++ PageResult.httpError status :: rest) noCancel
        (freshSession true)).ms = applyBatches (freshSession true).ms pre ∧
    (runLoad (pre ++ PageResult.httpError status :: rest) noCancel
        (freshSession true)).isLoading = false := by
  obtain ⟨h1, h2, h3, h4⟩ :=
    runLoad_error_general pre rest status (freshSession true) rfl h
  refine ⟨by rw [h1]; simp [freshSession], by rw [h2]; simp [freshSession], h3, h4⟩

/-- Witness for C4: one good page, then a 500, then a further page that is
never fetched. -/
theorem c4_http_error_halts_witness :
    (∀ p ∈ [PageResult.ok [pointFeature 1 1] (some "A")],
      ∃ fs cur, p = PageResult.ok fs (some cur)) ∧
    ((runLoad
        ([PageResult.ok [pointFeature 1 1] (some "A")] ++
          PageResult.httpError 500 :: [PageResult.ok [pointFeature 9 9] none])
        noCancel (freshSession true)).fetchCount =
        [PageResult.ok [pointFeature 1 1] (some "A")].length + 1 ∧
      (runLoad
          ([PageResult.ok [pointFeature 1 1] (some "A")] ++
            PageResult.httpError 500 :: [PageResult.ok [pointFeature 9 9] none])
          noCancel (freshSession true)).toastCount = 1 ∧
      (runLoad
          ([PageResult.ok [pointFeature 1 1] (some "A")] ++
            PageResult.httpError 500 :: [PageResult.ok [pointFeature 9 9] none])
          noCancel (freshSession true)).ms =
        applyBatches (freshSession true).ms
          [PageResult.ok [pointFeature 1 1] (some "A")] ∧
      (runLoad
          ([PageResult.ok [pointFeature 1 1] (some "A")] ++
            PageResult.httpError 500 :: [PageResult.ok [pointFeature 9 9] none])
          noCancel (freshSession true)).isLoading = false) := by
  refine ⟨?_, c4_http_error_halts _ _ 500 ?_⟩
  all_goals
    intro p hp
    simp only [List.mem_singleton] at hp
    subst hp
    exact ⟨[pointFeature 1 1], "A", rfl⟩

/-- C5: a cluster-expansion-zoom lookup with a stale id (issued by an earlier
build than the current index) yields a ClusterNotFoundError, the click
handler catches it and no-ops, and the viewport is left unchanged — the
renderer does not crash. -/
theorem c5_stale_cluster_click_noop (s : MapState) (idx : ClusterIndex)
    (cid : ClusterId) (lat lng : ℚ)
    (h : cid.generation ≠ idx.generation) :
    onClusterClick s idx cid lat lng = s ∧
    ∃ e, getClusterExpansionZoom idx cid = Except.error e := by
  have hbeq : (cid.generation == idx.generation) = false := by
    simpa using h
  have herr : getClusterExpansionZoom idx cid =
      Except.error (ClusterNotFoundError.clusterNotFound cid.raw) := by
    simp [getClusterExpansionZoom, hbeq]
  refine ⟨?_, ⟨_, herr⟩⟩
  unfold onClusterClick
  split
  · rfl
  · rw [herr]

/-- Witness for C5: a stale id (generation 1) against a rebuilt index
(generation 2) over a non-empty point buffer. -/
theorem c5_stale_cluster_click_noop_witness :
    ((⟨5, 1, 0⟩ : ClusterId).generation ≠ (rebuild [⟨1, 1, 1⟩] 2).generation) ∧
    (onClusterClick (addCollection [pointFeature 1 1] (freshSession true).ms)
        (rebuild [⟨1, 1, 1⟩] 2) ⟨5, 1, 0⟩ 7 7 =
      addCollection [pointFeature 1 1] (freshSession true).ms ∧
      ∃ e, getClusterExpansionZoom (rebuild [⟨1, 1, 1⟩] 2) ⟨5, 1, 0⟩ =
        Except.error e) :=
  ⟨by decide,
   c5_stale_cluster_click_noop
     (addCollection [pointFeature 1 1] (freshSession true).ms)
     (rebuild [⟨1, 1, 1⟩] 2) ⟨5, 1, 0⟩ 7 7 (by decide)⟩

end MapPipeline

namespace MapPipeline

/-- C6: features whose representative-point computation fails are skipped
silently — stored in neither the FeatureTable nor the points buffer and
assigned no pointId — while the remaining features of the batch are still
processed in order; consequently every pointId carried by a Leaf query
result resolves through the FeatureTable to a feature with a non-empty
geometry. -/
theorem c6_degenerate_skipped_leaves_resolve (c : List Feature) (s : MapState)
    (h : StateInv s) :
    (addCollection c s).featureMap =
      s.featureMap ++ batchEntries s.nextFeatureId c ∧
    (addCollection c s).points = s.points ++ batchPoints s.nextFeatureId c ∧
    (addCollection c s).featureMap.map Prod.snd =
      s.featureMap.map Prod.snd ++
        c.filter (fun f => (geometryToLatLng f.geometry).isSome) ∧
    (addCollection c s).points.map ClusterPoint.pid =
      (addCollection c s).featureMap.map Prod.fst ∧
    ∀ gen zoom qb p,
      ClusterOrPoint.leaf p ∈
          clusterQuery (rebuild (addCollection c s).points gen) qb zoom →
        ∃ f, (p.pid, f) ∈ (addCollection c s).featureMap ∧
          nonEmptyGeometry f = true := by
  have hinv' := stateInv_addCollection c s h
  obtain ⟨hfm, hpts, hnid, _⟩ := addCollection_data c s
  refine ⟨hfm, hpts, ?_, hinv'.2.2.1, ?_⟩
  · rw [hfm, List.map_append, batchEntries_map_snd]
  · intro gen zoom qb p hp
    have hmem : p ∈ (addCollection c s).points := clusterQuery_leaf_mem _ _ _ _ hp
    exact point_resolves _ hinv' p hmem

/-- Witness for C6: a batch holding a good feature, a degenerate geometry and
a missing geometry, indexed into a fresh session. -/
theorem c6_degenerate_skipped_leaves_resolve_witness :
    StateInv (freshSession true).ms ∧
    ((addCollection [pointFeature 1 1, ⟨some ⟨[]⟩⟩, ⟨none⟩]
          (freshSession true).ms).featureMap =
        (freshSession true).ms.featureMap ++
          batchEntries (freshSession true).ms.nextFeatureId
            [pointFeature 1 1, ⟨some ⟨[]⟩⟩, ⟨none⟩] ∧
      (addCollection [pointFeature 1 1, ⟨some ⟨[]⟩⟩, ⟨none⟩]
          (freshSession true).ms).points =
        (freshSession true).ms.points ++
          batchPoints (freshSession true).ms.nextFeatureId
            [pointFeature 1 1, ⟨some ⟨[]⟩⟩, ⟨none⟩] ∧
      (addCollection [pointFeature 1 1, ⟨some ⟨[]⟩⟩, ⟨none⟩]
          (freshSession true).ms).featureMap.map Prod.snd =
        (freshSession true).ms.featureMap.map Prod.snd ++
          [pointFeature 1 1, ⟨some ⟨[]⟩⟩, ⟨none⟩].filter
            (fun f => (geometryToLatLng f.geometry).isSome) ∧
      (addCollection [pointFeature 1 1, ⟨some ⟨[]⟩⟩, ⟨none⟩]
          (freshSession true).ms).points.map ClusterPoint.pid =
        (addCollection [pointFeature 1 1, ⟨some ⟨[]⟩⟩, ⟨none⟩]
          (freshSession true).ms).featureMap.map Prod.fst ∧
      ∀ gen zoom qb p,
        ClusterOrPoint.leaf p ∈
            clusterQuery
              (rebuild
                (addCollection [pointFeature 1 1, ⟨some ⟨[]⟩⟩, ⟨none⟩]
                  (freshSession true).ms).points gen) qb zoom →
          ∃ f,
            (p.pid, f) ∈
              (addCollection [pointFeature 1 1, ⟨some ⟨[]⟩⟩, ⟨none⟩]
                (freshSession true).ms).featureMap ∧
            nonEmptyGeometry f = true) :=
  ⟨by unfold StateInv; decide,
   c6_degenerate_skipped_leaves_resolve
     [pointFeature 1 1, ⟨some ⟨[]⟩⟩, ⟨none⟩] (freshSession true).ms
     (by unfold StateInv; decide)⟩

/-- C7: across any sequence of render events of a session started fresh with
the map mounted — data batches and viewport re-renders in any order — as
soon as the sequence contains a batch yielding at least one point, the
auto-fit is applied exactly once (fitCount ends at 1) and the fit-once flag
stays disarmed for the remainder of the session. -/
theorem c7_auto_fit_once (ops : List RenderOp)
    (h : ∃ op ∈ ops, opEffective op) :
    (runOps (freshSession true).ms ops).fitCount = 1 ∧
    (runOps (freshSession true).ms ops).shouldFitBounds = false := by
  have hfresh : FitInv (freshSession true).ms := Or.inl ⟨rfl, rfl, rfl⟩
  obtain ⟨rinv, hrm, rimp⟩ := runOps_fit ops (freshSession true).ms rfl hfresh
  have hfalse := rimp (Or.inr h)
  rcases rinv with ⟨h1, h2, h3⟩ | ⟨h1, h2, h3⟩
  · rw [h1] at hfalse
    exact absurd hfalse (by simp)
  · exact ⟨h2, hfalse⟩

/-- Ten sequential one-feature batches, as in the spec's test scenario. -/
def tenBatches : List RenderOp :=
  [RenderOp.batch [pointFeature 1 1], RenderOp.batch [pointFeature 2 2],
   RenderOp.batch [pointFeature 3 3], RenderOp.batch [pointFeature 4 4],
   RenderOp.batch [pointFeature 5 5], RenderOp.batch [pointFeature 6 6],
   RenderOp.batch [pointFeature 7 7], RenderOp.batch [pointFeature 8 8],
   RenderOp.batch [pointFeature 9 9], RenderOp.batch [pointFeature 10 10]]

/-- Witness for C7: ten sequential batches still fit exactly once. -/
theorem c7_auto_fit_once_witness :
    (∃ op ∈ tenBatches, opEffective op) ∧
    ((runOps (freshSession true).ms tenBatches).fitCount = 1 ∧
      (runOps (freshSession true).ms tenBatches).shouldFitBounds = false) :=
  ⟨⟨RenderOp.batch [pointFeature 1 1], by simp [tenBatches],
    (by decide : batchCount [pointFeature 1 1] ≠ 0)⟩,
   c7_auto_fit_once tenBatches
     ⟨RenderOp.batch [pointFeature 1 1], by simp [tenBatches],
      (by decide : batchCount [pointFeature 1 1] ≠ 0)⟩⟩

/-- C8: batch indexing preserves the session invariant — pointIds are unique
and strictly increasing, every id in the table is below the next fresh id,
each newly assigned id is strictly greater than every previously assigned
one, and every id resolves to exactly one retained feature. -/
theorem c8_pointId_unique_monotone (c : List Feature) (s : MapState)
    (h : StateInv s) :
    StateInv (addCollection c s) ∧
    List.Pairwise (· < ·) ((addCollection c s).featureMap.map Prod.fst) ∧
    (∀ k ∈ s.featureMap.map Prod.fst,
      ∀ k' ∈ (batchEntries s.nextFeatureId c).map Prod.fst, k < k') ∧
    ∀ k f g, (k, f) ∈ (addCollection c s).featureMap →
      (k, g) ∈ (addCollection c s).featureMap → f = g := by
  have hinv' := stateInv_addCollection c s h
  refine ⟨hinv', hinv'.1, ?_, pairwise_keys_functional _ hinv'.1⟩
  intro k hk k' hk'
  rw [batchEntries_map_fst] at hk'
  have h1 := h.2.1 k hk
  have h2 := List.mem_range'_1.mp hk'
  omega

/-- Witness for C8: a two-feature batch over a session that already holds one
feature. -/
theorem c8_pointId_unique_monotone_witness :
    StateInv (addCollection [pointFeature 1 1] (freshSession true).ms) ∧
    (StateInv
        (addCollection [pointFeature 2 2, pointFeature 3 3]
          (addCollection [pointFeature 1 1] (freshSession true).ms)) ∧
      List.Pairwise (· < ·)
        ((addCollection [pointFeature 2 2, pointFeature 3 3]
            (addCollection [pointFeature 1 1] (freshSession true).ms)).featureMap.map
          Prod.fst) ∧
      (∀ k ∈ (addCollection [pointFeature 1 1]
            (freshSession true).ms).featureMap.map Prod.fst,
        ∀ k' ∈ (batchEntries
            (addCollection [pointFeature 1 1] (freshSession true).ms).nextFeatureId
            [pointFeature 2 2, pointFeature 3 3]).map Prod.fst, k < k') ∧
      ∀ k f g,
        (k, f) ∈ (addCollection [pointFeature 2 2, pointFeature 3 3]
            (addCollection [pointFeature 1 1] (freshSession true).ms)).featureMap →
        (k, g) ∈ (addCollection [pointFeature 2 2, pointFeature 3 3]
            (addCollection [pointFeature 1 1] (freshSession true).ms)).featureMap →
        f = g) :=
  ⟨by unfold StateInv; decide,
   c8_pointId_unique_monotone [pointFeature 2 2, pointFeature 3 3]
     (addCollection [pointFeature 1 1] (freshSession true).ms)
     (by unfold StateInv; decide)⟩

end MapPipeline

namespace GeojsonRoute

/-- C9: the base64url cursor round-trips — decoding the token produced by
encoding a numeric record id yields the id back. -/
theorem c9_cursor_roundtrip (n : Nat) : decodeCursor (encodeCursor n) = n :=
  decodeCursor_encodeCursor n

/-- C10: the endpoint attaches a nextCursor exactly when the returned feature
list is non-empty (also when fewer rows than the limit were returned), so
end-of-stream is signaled only by a final empty page, and fully loading a
non-empty id-sorted dataset makes exactly one fetch more than the number of
non-empty pages. -/
theorem c10_next_cursor_iff_nonempty (db : List SicarRow) (lp : Option Nat)
    (hsort : List.Pairwise (fun a b => a.id < b.id) db) (hne : db ≠ []) :
    (∀ cp, ((GET db lp cp).nextCursor.isSome = true ↔
      (GET db lp cp).features ≠ [])) ∧
    ∃ n, 1 ≤ n ∧ fullLoad db lp none (db.length + 1) = some (n + 1, n) := by
  refine ⟨?_, fullLoad_none db lp hsort hne⟩
  intro cp
  rw [GET_eq]
  constructor
  · intro hs
    simp only [Option.isSome_map'] at hs
    have hrows := List.getLast?_isSome.mp hs
    simp only [ne_eq, List.map_eq_nil_iff]
    exact hrows
  · intro hf
    simp only [ne_eq, List.map_eq_nil_iff] at hf
    simp only [Option.isSome_map']
    exact List.getLast?_isSome.mpr hf

/-- Witness for C10: a three-row table loaded with limit 2 — two non-empty
pages and one final empty page, three fetches. -/
theorem c10_next_cursor_iff_nonempty_witness :
    List.Pairwise (fun a b => a.id < b.id)
        [(⟨1, ⟨[⟨1, 1⟩]⟩⟩ : SicarRow), ⟨2, ⟨[⟨2, 2⟩]⟩⟩, ⟨3, ⟨[⟨3, 3⟩]⟩⟩] ∧
    ([(⟨1, ⟨[⟨1, 1⟩]⟩⟩ : SicarRow), ⟨2, ⟨[⟨2, 2⟩]⟩⟩, ⟨3, ⟨[⟨3, 3⟩]⟩⟩] ≠ []) ∧
    ((∀ cp,
        ((GET [(⟨1, ⟨[⟨1, 1⟩]⟩⟩ : SicarRow), ⟨2, ⟨[⟨2, 2⟩]⟩⟩, ⟨3, ⟨[⟨3, 3⟩]⟩⟩]
            (some 2) cp).nextCursor.isSome = true ↔
          (GET [(⟨1, ⟨[⟨1, 1⟩]⟩⟩ : SicarRow), ⟨2, ⟨[⟨2, 2⟩]⟩⟩, ⟨3, ⟨[⟨3, 3⟩]⟩⟩]
            (some 2) cp).features ≠ [])) ∧
      ∃ n, 1 ≤ n ∧
        fullLoad [(⟨1, ⟨[⟨1, 1⟩]⟩⟩ : SicarRow), ⟨2, ⟨[⟨2, 2⟩]⟩⟩, ⟨3, ⟨[⟨3, 3⟩]⟩⟩]
          (some 2) none
          ([(⟨1, ⟨[⟨1, 1⟩]⟩⟩ : SicarRow), ⟨2, ⟨[⟨2, 2⟩]⟩⟩,
            ⟨3, ⟨[⟨3, 3⟩]⟩⟩].length + 1) = some (n + 1, n)) :=
  ⟨by decide, by decide,
   c10_next_cursor_iff_nonempty
     [(⟨1, ⟨[⟨1, 1⟩]⟩⟩ : SicarRow), ⟨2, ⟨[⟨2, 2⟩]⟩⟩, ⟨3, ⟨[⟨3, 3⟩]⟩⟩]
     (some 2) (by decide) (by decide)⟩

end GeojsonRoute
